import Mathlib

/-!
Complaint intake service (`server.js`)

A shallow embedding of the three API routes of `server.js`

* `POST /api/complaints`  (upload middleware, then the insert handler),
* `GET  /api/complaints`  (select all, newest first),
* `PUT  /api/complaints/:id` (update of the status column),

over an explicit model of the `complaints` table.  The table is a list of rows in
insertion order together with the autoincrement counter; the handle `db` of the
server is `Option Database`, `none` while the database has not been opened.

What the environment decides is passed in explicitly: the clock readings
(`datetime('now')`, `Date.now()`), whether the storage engine raises an error for
a statement, whether writing an uploaded file succeeds, and the engine's reading
of the text route parameter `:id` as a key of the INTEGER column.

Request values are text or missing, as the TEXT columns of the schema hold them:
`none` stands for a missing field (JavaScript `undefined`) and for SQL NULL.

The keys of the table are 64-bit integers; a row handed to a handler is a JavaScript
object whose `id` is a number, so a listed key is the key rounded to 53 significant bits.
-/

namespace Complaints

/-! ## Data model -/

/-- A row of the `complaints` table (`CREATE TABLE`, server.js lines 36-47). -/
structure Complaint where
  id : Int
  name : Option String
  email : Option String
  phone : Option String
  category : Option String
  description : Option String
  location : Option String
  status : Option String
  imagePath : Option String
  createdAt : Option String
deriving DecidableEq, Repr

/-- The database file: the rows of `complaints` in insertion order and the counter kept
for the `AUTOINCREMENT` key (the largest key handed out so far, `0` when none was). -/
structure Database where
  rows : List Complaint
  seq : Int
deriving DecidableEq, Repr

/-- The freshly created database: `CREATE TABLE IF NOT EXISTS` on a new file. -/
def Database.empty : Database := { rows := [], seq := 0 }

/-- The keys of the table, in insertion order. -/
def Database.ids (db : Database) : List Int := db.rows.map (fun r => r.id)

/-- The `PRIMARY KEY` constraint on `id`: no two rows share a key. -/
def Database.WF (db : Database) : Prop := db.ids.Nodup

instance Database.decidableWF (db : Database) : Decidable db.WF :=
  inferInstanceAs (Decidable db.ids.Nodup)

/-- Largest key a row can have (signed 64-bit). -/
def maxRowid : Int := 9223372036854775807

/-- Largest key among the rows, `none` for the empty table. -/
def lastKey : List Complaint → Option Int
  | [] => none
  | r :: rs =>
    match lastKey rs with
    | none => some r.id
    | some m => some (max r.id m)

/-- The largest key in use or ever handed out; the next `AUTOINCREMENT` key is one more. -/
def Database.highKey (db : Database) : Int :=
  max (match lastKey db.rows with | none => 0 | some m => m) db.seq

/-- The key `AUTOINCREMENT` assigns to the next inserted row. -/
def Database.nextId (db : Database) : Int := db.highKey + 1

/-! ## Requests, responses, environment -/

/-- The parsed `req.body`: field names with their text values. -/
abbrev Body := List (String × String)

/-- Reading a property of the body; `none` when the request does not carry it. -/
def Body.field (b : Body) (k : String) : Option String := b.lookup k

/-- An entry of `req.files` as the upload middleware leaves it. -/
structure File where
  fieldname : String
  originalname : String
  filename : String
deriving DecidableEq, Repr

/-- A file part of an incoming multipart request, with what the environment does when it
is stored: the reading of `Date.now()` and whether the write to the upload directory
succeeds. -/
structure FilePart where
  fieldname : String
  originalname : String
  clock : Nat
  writeOk : Bool
deriving DecidableEq, Repr

/-- A request to `POST /api/complaints`; `parts = none` is a request that is not
multipart, which the upload middleware passes through without setting `req.files`. -/
structure CreateRequest where
  body : Body
  parts : Option (List FilePart)
deriving DecidableEq, Repr

/-- What the environment supplies while a statement runs: the value of `datetime('now')`
and the error the storage engine raises for the statement, if it raises one. -/
structure Env where
  now : String
  fault : Option String
deriving DecidableEq, Repr

/-- Response bodies: the `success`/`message` envelope, the raw row array, and the
framework's own error page, sent when a middleware passes an error on and no handler of
`server.js` runs. -/
inductive Payload where
  | envelope (success : Bool) (message : String)
  | rows (rs : List Complaint)
  | defaultError (err : String)
deriving DecidableEq, Repr

/-- An HTTP response: status code and body. -/
structure Response where
  status : Nat
  payload : Payload
deriving DecidableEq, Repr

/-! ## Store statements -/

/-- `db.run` / `db.all` on the handle: a handle that is not open yet throws, an engine
error rejects and leaves the database as it was, otherwise the statement runs. -/
def withDb {α : Type} (st : Option Database) (env : Env)
    (stmt : Database → Except String α) : Except String α :=
  match st with
  | none => .error "TypeError: db is undefined"
  | some db =>
    match env.fault with
    | some e => .error e
    | none => stmt db

/-- `INSERT INTO complaints (name, email, phone, category, description, location,
imagePath, createdAt) VALUES (?, ?, ?, ?, ?, ?, ?, datetime('now'))`: the key is
generated, `status` takes its column default. -/
def insertComplaint (now : String)
    (name email phone category description location imagePath : Option String)
    (db : Database) : Except String Database :=
  if db.highKey ≥ maxRowid then .error "SQLITE_FULL"
  else .ok
    { rows := db.rows ++
        [{ id := db.nextId, name := name, email := email, phone := phone,
           category := category, description := description, location := location,
           status := some "Pending", imagePath := imagePath, createdAt := some now }]
      seq := db.nextId }

/-- `SELECT * FROM complaints ORDER BY id DESC`. -/
def selectAll (db : Database) : Except String (List Complaint) :=
  .ok (db.rows.insertionSort (fun a b => a.id ≥ b.id))

/-- `UPDATE complaints SET status = ? WHERE id = ?`; `keyOf` is the engine's reading of
the text parameter as a key of the INTEGER column (`none` when it is not one). -/
def updateStatus (keyOf : String → Option Int) (status : Option String) (id : String)
    (db : Database) : Except String Database :=
  .ok { rows := db.rows.map
          (fun r => if keyOf id = some r.id then { r with status := status } else r)
        seq := db.seq }

/-! ## Upload middleware -/

/-- `storage.filename`: `Date.now() + "-" + file.originalname`. The clock reading is a
count of milliseconds, a non-negative integer in the range where its text is its plain
decimal digits. -/
def filename (now : Nat) (originalname : String) : String :=
  toString now ++ "-" ++ originalname

/-- Storing the file parts one after the other, as `upload.array(field, maxCount)` with the
disk storage does: a part under another field name or beyond `maxCount`, or a failed
write, aborts the upload with an error. -/
def storeParts (field : String) (maxCount : Nat) :
    List FilePart → List File → Except String (List File)
  | [], acc => .ok acc
  | p :: ps, acc =>
    if p.fieldname ≠ field ∨ acc.length ≥ maxCount then .error "LIMIT_UNEXPECTED_FILE"
    else if p.writeOk = false then .error "write failed"
    else storeParts field maxCount ps
      (acc ++ [{ fieldname := p.fieldname, originalname := p.originalname,
                 filename := filename p.clock p.originalname }])

/-- `upload.array("images", 3)`: the value of `req.files` for the handler, or the error
passed on to the framework. -/
def upload (parts : Option (List FilePart)) : Except String (Option (List File)) :=
  match parts with
  | none => .ok none
  | some ps =>
    match storeParts "images" 3 ps [] with
    | .ok fs => .ok (some fs)
    | .error e => .error e

/-! ## Route handlers -/

/-- The recorded reference of a stored file: the template string of line 75. -/
def reference (f : File) : String := "/uploads/" ++ f.filename

/-- The `imagePaths` value of the create handler (lines 74-76). -/
def imagePaths (files : Option (List File)) : Option String :=
  match files with
  | none => none
  | some fs =>
    if fs.length > 0 then some (",".intercalate (fs.map reference)) else none

/-- The row a create inserts into `db`, without the insert itself. -/
def newRow (now : String) (body : Body) (files : Option (List File)) (db : Database) :
    Complaint :=
  { id := db.nextId, name := body.field "name", email := body.field "email",
    phone := body.field "phone", category := body.field "category",
    description := body.field "description", location := body.field "location",
    status := some "Pending", imagePath := imagePaths files, createdAt := some now }

/-- The async handler of `POST /api/complaints` (lines 69-89), given `req.body` and
`req.files`. -/
def createHandler (env : Env) (st : Option Database) (body : Body)
    (files : Option (List File)) : Response × Option Database :=
  match withDb st env
      (insertComplaint env.now (body.field "name") (body.field "email")
        (body.field "phone") (body.field "category") (body.field "description")
        (body.field "location") (imagePaths files)) with
  | .ok db => (⟨200, .envelope true "✅ Complaint saved successfully!"⟩, some db)
  | .error _ => (⟨500, .envelope false "Error saving complaint."⟩, st)

/-- The route `POST /api/complaints`: the upload middleware, then the handler; an error of
the middleware goes to the framework and the handler does not run. -/
def postComplaints (env : Env) (st : Option Database) (req : CreateRequest) :
    Response × Option Database :=
  match upload req.parts with
  | .error e => (⟨500, .defaultError e⟩, st)
  | .ok files => createHandler env st req.body files

/-- Number of binary digits of `a`, for any `fuel` of at least that number. -/
def bitLength : Nat → Nat → Nat
  | 0, _ => 0
  | fuel + 1, a => if a = 0 then 0 else bitLength fuel (a / 2) + 1

/-- The JavaScript number an integer key becomes when a row is handed to a handler: the
key itself while it has at most 53 significant bits, otherwise the nearest integer with 53
significant bits, a tie going to the even significand. -/
def toNumber (n : Int) : Int :=
  let a := n.natAbs
  let q := 2 ^ (bitLength a a - 53)
  let lo := a / q
  let r := a % q
  let m := if 2 * r < q then lo
           else if 2 * r > q then lo + 1
           else if lo % 2 = 0 then lo else lo + 1
  n.sign * ((m * q : Nat) : Int)

/-- A row as the JavaScript object `db.all` returns for it: the text columns as they are,
the key as a number. -/
def toJs (r : Complaint) : Complaint := { r with id := toNumber r.id }

/-- The route `GET /api/complaints` (lines 92-100): the rows of the query, as the objects
`db.all` returns, are the response body. -/
def getComplaints (env : Env) (st : Option Database) : Response × Option Database :=
  match withDb st env selectAll with
  | .ok rows => (⟨200, .rows (rows.map toJs)⟩, st)
  | .error _ => (⟨500, .envelope false "Error fetching complaints."⟩, st)

/-- The route `PUT /api/complaints/:id` (lines 103-113): `status` from the body, `id` from
the route parameters. -/
def putComplaint (keyOf : String → Option Int) (env : Env) (st : Option Database)
    (id : String) (body : Body) : Response × Option Database :=
  match withDb st env (updateStatus keyOf (body.field "status") id) with
  | .ok db => (⟨200, .envelope true "✅ Status updated successfully!"⟩, some db)
  | .error _ => (⟨500, .envelope false "Error updating status."⟩, st)

/-! ## Middleware in front of the routes -/

/-- The body of an incoming request, as the middleware in front of the routes meets it:
nothing to parse, a well-formed JSON object of text fields, declared JSON that does not
parse, declared JSON above the size limit, or a multipart form with its text fields and
file parts. -/
inductive Content where
  | empty
  | json (fields : Body)
  | malformedJson
  | oversizedJson
  | multipart (fields : Body) (parts : List FilePart)
deriving DecidableEq, Repr

/-- `app.use(bodyParser.json({ limit: "20mb" }))` (line 24), which runs before every
route: JSON that parses becomes `req.body`, JSON that does not parse or is too large is
an error passed on to the framework with its status code, and any other request goes on
with `unparsed` in `req.body`, which is what the parser in use leaves there (an empty
object, or nothing). -/
def bodyParserJson (unparsed : Option Body) : Content → Except (Nat × String) (Option Body)
  | .json fields => .ok (some fields)
  | .malformedJson => .error (400, "SyntaxError")
  | .oversizedJson => .error (413, "PayloadTooLargeError")
  | .empty => .ok unparsed
  | .multipart _ _ => .ok unparsed

/-- The file parts the upload middleware finds in the request; none unless it is
multipart. -/
def Content.parts : Content → Option (List FilePart)
  | .multipart _ ps => some ps
  | _ => none

/-- The value of `req.body` when the create handler runs: the upload middleware sets it to
the text fields of a multipart form and leaves it alone otherwise. -/
def Content.formBody (c : Content) (parsed : Option Body) : Option Body :=
  match c with
  | .multipart fields _ => some fields
  | _ => parsed

/-- Serving `GET /api/complaints`: the body parser, then the route. -/
def serveGet (unparsed : Option Body) (env : Env) (st : Option Database) (c : Content) :
    Response × Option Database :=
  match bodyParserJson unparsed c with
  | .error (code, e) => (⟨code, .defaultError e⟩, st)
  | .ok _ => getComplaints env st

/-- Serving `PUT /api/complaints/:id`: the body parser, then the route; with nothing in
`req.body` the destructuring on line 105 throws inside the `try`. -/
def servePut (keyOf : String → Option Int) (unparsed : Option Body) (env : Env)
    (st : Option Database) (id : String) (c : Content) : Response × Option Database :=
  match bodyParserJson unparsed c with
  | .error (code, e) => (⟨code, .defaultError e⟩, st)
  | .ok none => (⟨500, .envelope false "Error updating status."⟩, st)
  | .ok (some body) => putComplaint keyOf env st id body

/-- Serving `POST /api/complaints`: the body parser, then the route with its upload
middleware; with nothing in `req.body` the destructuring on line 71 throws inside the
`try`. -/
def servePost (unparsed : Option Body) (env : Env) (st : Option Database) (c : Content) :
    Response × Option Database :=
  match bodyParserJson unparsed c with
  | .error (code, e) => (⟨code, .defaultError e⟩, st)
  | .ok parsed =>
    match c.formBody parsed with
    | none => (⟨500, .envelope false "Error saving complaint."⟩, st)
    | some body => postComplaints env st ⟨body, c.parts⟩

/-! ## Runs of the service -/

/-- A request to one of the three routes, with the environment it meets. -/
inductive Op where
  | create (env : Env) (req : CreateRequest)
  | list (env : Env)
  | update (env : Env) (id : String) (body : Body)
deriving DecidableEq, Repr

/-- Serving one request. -/
def step (keyOf : String → Option Int) (st : Option Database) : Op →
    Response × Option Database
  | .create env req => postComplaints env st req
  | .list env => getComplaints env st
  | .update env id body => putComplaint keyOf env st id body

/-- Serving a sequence of requests; the state after the last one. -/
def run (keyOf : String → Option Int) (st : Option Database) : List Op → Option Database
  | [] => st
  | op :: ops => run keyOf (step keyOf st op).2 ops

/-- The keys of a handle that may not be open: none when it is not. -/
def idsOf (st : Option Database) : List Int :=
  match st with
  | none => []
  | some db => db.ids

/-- The keys handed out by the successive creates of a run, in order: a create that
succeeds hands out the key of the row it adds. -/
def assigned (keyOf : String → Option Int) (st : Option Database) : List Op → List Int
  | [] => []
  | op :: ops =>
    let st' := (step keyOf st op).2
    (match op with
      | .create _ _ => (idsOf st').drop (idsOf st).length
      | _ => []) ++ assigned keyOf st' ops

/-- A state is reachable when some sequence of requests leads to it from the empty store. -/
def Reachable (keyOf : String → Option Int) (st : Option Database) : Prop :=
  ∃ ops : List Op, run keyOf (some Database.empty) ops = st

/-- Splitting a serialized field on commas, the way a reader of `imagePath` takes the
references apart again (JavaScript `split(",")`); `server.js` itself only joins. -/
def splitOnComma (s : String) : List String := (s.data.splitOn ',').map String.mk

/-- The response is the error envelope with the server-error status code. -/
def Response.isErrorEnvelope (r : Response) : Bool :=
  match r.payload with
  | .envelope false _ => r.status == 500
  | _ => false

/-- The response is the success envelope. -/
def Response.isSuccessEnvelope (r : Response) : Bool :=
  match r.payload with
  | .envelope true _ => r.status == 200
  | _ => false

/-- The store call of a handler fails: the handle is not open, or the engine raises an
error for the statement. -/
def storeFails (st : Option Database) (env : Env) : Prop :=
  st = none ∨ env.fault.isSome = true

/-- No key is left for a further row. -/
def keysExhausted (st : Option Database) : Prop :=
  ∃ db, st = some db ∧ db.highKey ≥ maxRowid

/-- The number a list of decimal digit characters denotes. -/
def decimalValue (cs : List Char) : Nat :=
  cs.foldl (fun acc c => acc * 10 + (c.toNat - 48)) 0

/-! ## Sample inputs -/

/-- A reading of the route parameter: plain decimal digits denote their number, anything
else is no key. -/
def sampleKeyOf (s : String) : Option Int :=
  if s.data ≠ [] ∧ s.data.all Char.isDigit = true then some (decimalValue s.data) else none

/-- An environment in which the engine raises no error. -/
def sampleEnv : Env := { now := "2024-01-01 00:00:00", fault := none }

/-- A row with the given key and name, pending, without images. -/
def sampleRow (id : Int) (name : String) : Complaint :=
  { id := id, name := some name, email := some "a@x.com", phone := some "1",
    category := some "Pothole", description := some "Big hole", location := some "Main St",
    status := some "Pending", imagePath := none, createdAt := some "2024-01-01 00:00:00" }

/-- A store with three rows, keys 1, 2, 3. -/
def sampleDb : Database :=
  { rows := [sampleRow 1 "A", sampleRow 2 "B", sampleRow 3 "C"], seq := 3 }

/-- A store with two rows whose keys, 2^53 and 2^53 + 1, need more than 53 bits to tell
apart. -/
def sampleBigDb : Database :=
  { rows := [sampleRow 9007199254740992 "A", sampleRow 9007199254740993 "B"],
    seq := 9007199254740993 }

/-- The create request of the scenario: six text fields and one image. -/
def sampleCreate : CreateRequest :=
  { body := [("name", "A"), ("email", "a@x.com"), ("phone", "1"), ("category", "Pothole"),
      ("description", "Big hole"), ("location", "Main St")],
    parts := some [{ fieldname := "images", originalname := "hole.png", clock := 1700,
                     writeOk := true }] }

/-- The same create with an id, a status, an imagePath and a createdAt sent along. -/
def sampleCreateForged : CreateRequest :=
  { body := [("id", "77"), ("status", "Resolved"), ("imagePath", "/etc/passwd"),
      ("createdAt", "1999-01-01")] ++ sampleCreate.body,
    parts := sampleCreate.parts }

/-! ## Update of the status column -/

theorem withDb_ok {α : Type} (db : Database) (env : Env) (stmt : Database → Except String α)
    (h : env.fault = none) : withDb (some db) env stmt = stmt db := by
  simp [withDb, h]

theorem withDb_fails {α : Type} (st : Option Database) (env : Env)
    (stmt : Database → Except String α) (h : storeFails st env) :
    ∃ e, withDb st env stmt = .error e := by
  rcases h with h | h
  · subst h; exact ⟨_, rfl⟩
  · cases st with
    | none => exact ⟨_, rfl⟩
    | some db =>
      cases hf : env.fault with
      | none => simp [hf] at h
      | some e => exact ⟨e, by simp [withDb, hf]⟩

/-- C1. When the id of `PUT /api/complaints/:id` matches a row (key `k`), the store is
open and the engine raises no error, the update answers with the success envelope and
yields a store in which the row with key `k` is the old row with only `status` replaced by
the submitted status (id, name, email, phone, category, description, location, imagePath
and createdAt as before), every other row is the old row, and the number of rows, their
ids and the key counter are the same as before. -/
theorem putComplaint_existing_changes_only_status (keyOf : String → Option Int) (env : Env)
    (db : Database) (id : String) (k : Int) (body : Body)
    (hfault : env.fault = none) (hkey : keyOf id = some k) (hmem : k ∈ db.ids) :
    ∃ db', putComplaint keyOf env (some db) id body =
        (⟨200, .envelope true "✅ Status updated successfully!"⟩, some db') ∧
      db'.rows.length = db.rows.length ∧ db'.ids = db.ids ∧ db'.seq = db.seq ∧
      (∃ r ∈ db'.rows, r.id = k ∧ r.status = body.field "status") ∧
      List.Forall₂
        (fun r r' =>
          (r.id = k → r' = { r with status := body.field "status" }) ∧
          (r.id ≠ k → r' = r))
        db.rows db'.rows := by
  refine ⟨⟨db.rows.map (fun r =>
      if keyOf id = some r.id then { r with status := body.field "status" } else r),
      db.seq⟩, ?_, ?_, ?_, rfl, ?_, ?_⟩
  · simp only [putComplaint, withDb_ok _ _ _ hfault, updateStatus]
  · simp
  · simp only [Database.ids, List.map_map]
    apply List.map_congr_left
    intro r _
    by_cases h : keyOf id = some r.id <;> simp [h]
  · simp only [Database.ids, List.mem_map] at hmem
    obtain ⟨r, hr, hrk⟩ := hmem
    refine ⟨{ r with status := body.field "status" }, ?_, hrk, rfl⟩
    simp only [List.mem_map]
    exact ⟨r, hr, by simp [hkey, hrk]⟩
  · rw [List.forall₂_map_right_iff]
    apply List.forall₂_same.2
    intro r _
    constructor
    · intro h; simp [hkey, h]
    · intro h
      have : ¬ some k = some r.id := fun e => h (Option.some.inj e).symm
      simp [hkey, this]

/-- C2. When the id of `PUT /api/complaints/:id` matches no row, the store is open and
the engine raises no error, the update answers with the success envelope and the store is
exactly what it was: same rows, same fields, same next id. -/
theorem putComplaint_missing_id_is_noop (keyOf : String → Option Int) (env : Env)
    (db : Database) (id : String) (body : Body)
    (hfault : env.fault = none) (hno : ∀ r ∈ db.rows, keyOf id ≠ some r.id) :
    putComplaint keyOf env (some db) id body =
        (⟨200, .envelope true "✅ Status updated successfully!"⟩, some db) ∧
      (putComplaint keyOf env (some db) id body).1.isSuccessEnvelope = true ∧
      ∀ db', (putComplaint keyOf env (some db) id body).2 = some db' →
        db'.rows = db.rows ∧ db'.nextId = db.nextId := by
  have hrows : db.rows.map
      (fun r => if keyOf id = some r.id then { r with status := body.field "status" } else r)
      = db.rows := by
    conv_rhs => rw [← List.map_id db.rows]
    apply List.map_congr_left
    intro r hr
    simp [hno r hr]
  have hput : putComplaint keyOf env (some db) id body =
      (⟨200, .envelope true "✅ Status updated successfully!"⟩, some db) := by
    simp only [putComplaint, withDb_ok _ _ _ hfault, updateStatus, hrows]
  refine ⟨hput, ?_, ?_⟩
  · rw [hput]; rfl
  · intro db' h
    rw [hput] at h
    cases h
    exact ⟨rfl, rfl⟩

/-! ## Keys -/

theorem lastKey_ge (rows : List Complaint) (r : Complaint) (h : r ∈ rows) :
    ∃ m, lastKey rows = some m ∧ r.id ≤ m := by
  induction rows with
  | nil => cases h
  | cons a rs ih =>
    rcases List.mem_cons.1 h with h | h
    · subst h
      cases hl : lastKey rs with
      | none => exact ⟨r.id, by simp [lastKey, hl], le_refl _⟩
      | some m => exact ⟨max r.id m, by simp [lastKey, hl], le_max_left _ _⟩
    · obtain ⟨m, hm, hle⟩ := ih h
      exact ⟨max a.id m, by simp [lastKey, hm], le_trans hle (le_max_right _ _)⟩

theorem id_lt_nextId (db : Database) (r : Complaint) (h : r ∈ db.rows) :
    r.id < db.nextId := by
  obtain ⟨m, hm, hle⟩ := lastKey_ge db.rows r h
  have : m ≤ db.highKey := by
    simp only [Database.highKey, hm]
    exact le_max_left _ _
  simp only [Database.nextId]
  omega

/-! ## Listing -/

theorem insertionSort_newest (rows : List Complaint) (a : Complaint)
    (h : ∀ r ∈ rows, r.id < a.id) :
    (rows ++ [a]).insertionSort (fun x y => x.id ≥ y.id) =
      a :: rows.insertionSort (fun x y => x.id ≥ y.id) := by
  induction rows with
  | nil => rfl
  | cons b rs ih =>
    have hb : b.id < a.id := h b (List.mem_cons_self _ _)
    have hrs : ∀ r ∈ rs, r.id < a.id := fun r hr => h r (List.mem_cons_of_mem _ hr)
    have hnot : ¬ (b.id ≥ a.id) := by omega
    have e : (b :: rs ++ [a]).insertionSort (fun x y => x.id ≥ y.id) =
        List.orderedInsert (fun x y => x.id ≥ y.id) b
          ((rs ++ [a]).insertionSort (fun x y => x.id ≥ y.id)) := rfl
    rw [e, ih hrs]
    simp only [List.insertionSort, List.orderedInsert, hnot, if_false]

theorem selectAll_sorted (rows : List Complaint) :
    ((rows.insertionSort (fun a b => a.id ≥ b.id)).map (fun r => r.id)).Pairwise
      (fun x y => x ≥ y) := by
  haveI : IsTotal Complaint (fun a b => a.id ≥ b.id) := ⟨fun a b => le_total b.id a.id⟩
  haveI : IsTrans Complaint (fun a b => a.id ≥ b.id) :=
    ⟨fun a b c hab hbc => le_trans hbc hab⟩
  have hs := List.sorted_insertionSort (fun a b : Complaint => a.id ≥ b.id) rows
  exact List.pairwise_map.2 hs

theorem bitLength_le (fuel : Nat) : ∀ (a k : Nat), a < 2 ^ k → bitLength fuel a ≤ k := by
  induction fuel with
  | zero => intro a k _; simp [bitLength]
  | succ fuel ih =>
    intro a k h
    by_cases h0 : a = 0
    · simp [bitLength, h0]
    · cases k with
      | zero => simp at h; exact absurd h h0
      | succ k =>
        have hhalf : a / 2 < 2 ^ k := by
          rw [pow_succ] at h
          omega
        have := ih (a / 2) k hhalf
        simp only [bitLength, h0, if_false]
        omega

theorem toNumber_exact (n : Int) (h : n.natAbs ≤ 2 ^ 53) : toNumber n = n := by
  rcases Nat.lt_or_eq_of_le h with hlt | heq
  · have hb : bitLength n.natAbs n.natAbs - 53 = 0 :=
      Nat.sub_eq_zero_of_le (bitLength_le _ _ _ hlt)
    simp only [toNumber, hb, pow_zero, Nat.div_one, Nat.mod_one, Nat.mul_zero, Nat.mul_one]
    simp only [Nat.zero_lt_one, if_true]
    exact Int.sign_mul_natAbs n
  · have hb : bitLength n.natAbs n.natAbs - 53 = 1 := by rw [heq]; decide
    have hm : (if 2 * (n.natAbs % 2 ^ 1) < 2 ^ 1 then n.natAbs / 2 ^ 1
        else if 2 * (n.natAbs % 2 ^ 1) > 2 ^ 1 then n.natAbs / 2 ^ 1 + 1
        else if n.natAbs / 2 ^ 1 % 2 = 0 then n.natAbs / 2 ^ 1
        else n.natAbs / 2 ^ 1 + 1) * 2 ^ 1 = n.natAbs := by rw [heq]; decide
    simp only [toNumber, hb, hm]
    exact Int.sign_mul_natAbs n

theorem map_toJs_exact (rows : List Complaint) (h : ∀ r ∈ rows, r.id.natAbs ≤ 2 ^ 53) :
    rows.map toJs = rows := by
  conv_rhs => rw [← List.map_id rows]
  apply List.map_congr_left
  intro r hr
  simp only [toJs, toNumber_exact r.id (h r hr), id]

/-- C3, as stated, fails: in a store obeying the primary key whose two keys are 2^53 and
2^53 + 1, the list answers with the id 9007199254740992 twice; the row with key
2^53 + 1 is not in the body and the ids are not strictly descending. -/
theorem getComplaints_large_keys_collapse :
    sampleBigDb.WF ∧
      (getComplaints sampleEnv (some sampleBigDb)).1 =
        ⟨200, .rows [sampleRow 9007199254740992 "B", sampleRow 9007199254740992 "A"]⟩ ∧
      sampleRow 9007199254740993 "B" ∈ sampleBigDb.rows ∧
      sampleRow 9007199254740993 "B" ∉
        [sampleRow 9007199254740992 "B", sampleRow 9007199254740992 "A"] ∧
      ¬ ([sampleRow 9007199254740992 "B", sampleRow 9007199254740992 "A"].map
        (fun r => r.id)).Pairwise (fun x y => x > y) := by
  refine ⟨by decide, by decide, by decide, by decide, by decide⟩

/-- C3, amended. When the store is open, the engine raises no error, the keys are unique
(the primary key constraint) and no key exceeds 2^53 in absolute value (every key is exact
as a JavaScript number), `GET /api/complaints` answers with status 200 and, as the raw
body, a sequence that is a rearrangement of the rows of the store (each row once, none
missing) in strictly descending order of id; the store is unchanged; and when the ids in
the store are 1, 2 and 3 the ids come back as 3, 2, 1. -/
theorem getComplaints_all_rows_newest_first (env : Env) (db : Database)
    (hfault : env.fault = none) (hwf : db.WF)
    (hsafe : ∀ r ∈ db.rows, r.id.natAbs ≤ 2 ^ 53) :
    ∃ l, getComplaints env (some db) = (⟨200, .rows l⟩, some db) ∧
      l.Perm db.rows ∧
      (l.map (fun r => r.id)).Pairwise (fun x y => x > y) ∧
      (db.ids.Perm [1, 2, 3] → l.map (fun r => r.id) = [3, 2, 1]) := by
  have hperm := List.perm_insertionSort (fun a b : Complaint => a.id ≥ b.id) db.rows
  have hnodup : ((db.rows.insertionSort (fun a b => a.id ≥ b.id)).map
      (fun r => r.id)).Nodup := (List.Perm.nodup_iff (hperm.map _)).2 hwf
  have hstrict : ((db.rows.insertionSort (fun a b => a.id ≥ b.id)).map
      (fun r => r.id)).Pairwise (fun x y => x > y) :=
    ((selectAll_sorted db.rows).and hnodup).imp (fun h => lt_of_le_of_ne h.1 (Ne.symm h.2))
  have hjs : (db.rows.insertionSort (fun a b => a.id ≥ b.id)).map toJs =
      db.rows.insertionSort (fun a b => a.id ≥ b.id) :=
    map_toJs_exact _ (fun r hr => hsafe r (hperm.subset hr))
  refine ⟨db.rows.insertionSort (fun a b => a.id ≥ b.id), ?_, hperm, hstrict, ?_⟩
  · simp only [getComplaints, withDb_ok _ _ _ hfault, selectAll, hjs]
  · intro h123
    have hp : ((db.rows.insertionSort (fun a b => a.id ≥ b.id)).map (fun r => r.id)).Perm
        [3, 2, 1] := ((hperm.map _).trans h123).trans (by decide)
    exact List.eq_of_perm_of_sorted hp hstrict (by decide)

/-! ## Key assignment along runs -/

theorem idsOf_put (keyOf : String → Option Int) (env : Env) (st : Option Database)
    (id : String) (body : Body) :
    idsOf (putComplaint keyOf env st id body).2 = idsOf st := by
  cases st with
  | none => rfl
  | some db =>
    cases hf : env.fault with
    | some e => simp [putComplaint, withDb, hf]
    | none =>
      simp only [putComplaint, withDb, hf, updateStatus, idsOf, Database.ids, List.map_map]
      apply List.map_congr_left
      intro r _
      by_cases h : keyOf id = some r.id <;> simp [h]

theorem idsOf_get (env : Env) (st : Option Database) :
    (getComplaints env st).2 = st := by
  simp only [getComplaints]
  split <;> rfl

theorem idsOf_post (env : Env) (st : Option Database) (req : CreateRequest) :
    idsOf (postComplaints env st req).2 = idsOf st ∨
      ∃ db, st = some db ∧ idsOf (postComplaints env st req).2 = db.ids ++ [db.nextId] := by
  simp only [postComplaints]
  cases upload req.parts with
  | error e => exact Or.inl rfl
  | ok files =>
    cases st with
    | none => exact Or.inl rfl
    | some db =>
      cases hf : env.fault with
      | some e => left; simp [createHandler, withDb, hf]
      | none =>
        by_cases hk : db.highKey ≥ maxRowid
        · left; simp [createHandler, withDb, hf, insertComplaint, hk]
        · right
          refine ⟨db, rfl, ?_⟩
          simp [createHandler, withDb, hf, insertComplaint, hk, idsOf, Database.ids]

theorem run_ids (keyOf : String → Option Int) (ops : List Op) :
    ∀ st : Option Database, (idsOf st).Pairwise (fun x y => x < y) →
      idsOf (run keyOf st ops) = idsOf st ++ assigned keyOf st ops ∧
      (idsOf (run keyOf st ops)).Pairwise (fun x y => x < y) := by
  induction ops with
  | nil => intro st h; simp [run, assigned, h]
  | cons op ops ih =>
    intro st h
    cases op with
    | list env =>
      have e : (step keyOf st (.list env)).2 = st := idsOf_get env st
      simp only [run, assigned, e, List.nil_append]
      exact ih st h
    | update env id body =>
      have e : idsOf (step keyOf st (.update env id body)).2 = idsOf st :=
        idsOf_put keyOf env st id body
      obtain ⟨h1, h2⟩ := ih (step keyOf st (.update env id body)).2 (e ▸ h)
      simp only [run, assigned, List.nil_append]
      exact ⟨by rw [h1, e], h2⟩
    | create env req =>
      have hstep : (step keyOf st (.create env req)).2 = (postComplaints env st req).2 := rfl
      rcases idsOf_post env st req with e | ⟨db, hdb, e⟩
      · obtain ⟨h1, h2⟩ := ih (postComplaints env st req).2 (e ▸ h)
        simp only [run, assigned, hstep]
        refine ⟨?_, h2⟩
        rw [h1, e]; simp
      · have hst : idsOf st = db.ids := by rw [hdb]; rfl
        have hnew : (idsOf (postComplaints env st req).2).Pairwise (fun x y => x < y) := by
          rw [e, List.pairwise_append]
          refine ⟨hst ▸ h, List.pairwise_singleton _ _, ?_⟩
          intro a ha b hb
          rw [List.mem_singleton.1 hb]
          simp only [Database.ids, List.mem_map] at ha
          obtain ⟨r, hr, rfl⟩ := ha
          exact id_lt_nextId db r hr
        obtain ⟨h1, h2⟩ := ih (postComplaints env st req).2 hnew
        simp only [run, assigned, hstep]
        refine ⟨?_, h2⟩
        rw [h1, e, hst]; simp

/-- C4. Along every sequence of create, list and update-status requests served from the
empty store, the ids handed out by the successive creates are strictly increasing; they
are exactly the ids of the rows of the state reached, so in every reachable state the ids
are pairwise distinct and none was handed out twice; and update-status and list leave the
ids of any store as they are. -/
theorem assigned_ids_strictly_increasing (keyOf : String → Option Int) (ops : List Op) :
    (assigned keyOf (some Database.empty) ops).Pairwise (fun x y => x < y) ∧
      idsOf (run keyOf (some Database.empty) ops) = assigned keyOf (some Database.empty) ops ∧
      (idsOf (run keyOf (some Database.empty) ops)).Nodup ∧
      (∀ st : Option Database, Reachable keyOf st →
        (idsOf st).Pairwise (fun x y => x ≠ y)) ∧
      (∀ (st : Option Database) (env : Env) (id : String) (body : Body),
        idsOf (putComplaint keyOf env st id body).2 = idsOf st) ∧
      (∀ (st : Option Database) (env : Env), idsOf (getComplaints env st).2 = idsOf st) := by
  obtain ⟨h1, h2⟩ := run_ids keyOf ops (some Database.empty) List.Pairwise.nil
  have h1' : idsOf (run keyOf (some Database.empty) ops) =
      assigned keyOf (some Database.empty) ops := by
    rw [h1]; rfl
  refine ⟨h1' ▸ h2, h1', ?_, ?_, ?_, ?_⟩
  · exact h2.imp (fun h => ne_of_lt h)
  · rintro st ⟨ops', rfl⟩
    exact (run_ids keyOf ops' (some Database.empty) List.Pairwise.nil).2.imp
      (fun h => ne_of_lt h)
  · intro st env id body; exact idsOf_put keyOf env st id body
  · intro st env; rw [idsOf_get]

/-! ## Image references -/

theorem intercalate_go_data (as : List String) : ∀ acc : String,
    (String.intercalate.go acc "," as).data =
      acc.data ++ (as.map (fun a => ',' :: a.data)).flatten := by
  induction as with
  | nil => intro acc; simp [String.intercalate.go]
  | cons a as ih =>
    intro acc
    have hc : (",":String).data = [','] := rfl
    simp [String.intercalate.go, ih, String.data_append, hc]

theorem list_intercalate_cons (x : List Char) (xs : List (List Char)) :
    [','].intercalate (x :: xs) = x ++ (xs.map (fun a => ',' :: a)).flatten := by
  induction xs generalizing x with
  | nil => simp [List.intercalate]
  | cons y ys ih =>
    have h := ih y
    simp only [List.intercalate] at h ⊢
    simp [List.intersperse, h]

theorem intercalate_data (xs : List String) :
    (",".intercalate xs).data = [','].intercalate (xs.map String.data) := by
  cases xs with
  | nil => rfl
  | cons a as =>
    simp only [String.intercalate, intercalate_go_data, List.map_cons, list_intercalate_cons,
      List.map_map]
    rfl

theorem splitOnComma_intercalate (xs : List String) (hne : xs ≠ [])
    (hx : ∀ x ∈ xs, ',' ∉ x.data) : splitOnComma (",".intercalate xs) = xs := by
  have h := List.splitOn_intercalate (xs.map String.data) ','
    (by
      intro l hl
      obtain ⟨x, hx1, rfl⟩ := List.mem_map.1 hl
      exact hx x hx1)
    (by simpa using hne)
  simp only [splitOnComma, intercalate_data, h, List.map_map]
  conv_rhs => rw [← List.map_id xs]
  apply List.map_congr_left
  intro x _
  rfl

/-- C5. A create whose `req.files` is absent or empty, whatever its text fields, with
the store open, no engine error and a key left, adds exactly one row, and that row has
`imagePath` null and `status` "Pending". -/
theorem createHandler_no_files (env : Env) (db : Database) (body : Body)
    (files : Option (List File)) (hfiles : files = none ∨ files = some [])
    (hfault : env.fault = none) (hkey : db.highKey < maxRowid) :
    ∃ row, (createHandler env (some db) body files).2 =
        some { rows := db.rows ++ [row], seq := db.nextId } ∧
      row = newRow env.now body files db ∧
      row.imagePath = none ∧ row.status = some "Pending" := by
  have hk : ¬ db.highKey ≥ maxRowid := not_le.2 hkey
  refine ⟨newRow env.now body files db, ?_, rfl, ?_, rfl⟩
  · simp only [createHandler, withDb_ok _ _ _ hfault, insertComplaint, hk, if_false, newRow]
  · rcases hfiles with h | h <;> subst h <;> rfl

/-- C6, as stated, fails: one accepted file whose stored filename contains a comma gives
an `imagePath` that splits into two entries, not one. -/
theorem imagePaths_comma_in_filename_splits_in_two :
    imagePaths (some [⟨"images", "a,b.png", "1700-a,b.png"⟩]) =
        some "/uploads/1700-a,b.png" ∧
      splitOnComma "/uploads/1700-a,b.png" = ["/uploads/1700-a", "b.png"] ∧
      (splitOnComma "/uploads/1700-a,b.png").length ≠
        [(⟨"images", "a,b.png", "1700-a,b.png"⟩ : File)].length := by
  decide

/-- C6, amended. For the accepted files `fs` of a create whose stored filenames contain
no comma: `imagePath` is null when there is no file (also when `req.files` is absent), and
otherwise splitting the field on "," yields exactly one entry per file, the i-th being
"/uploads/" followed by the stored filename of the i-th file, in upload order. -/
theorem imagePaths_split_without_commas (fs : List File)
    (hcomma : ∀ f ∈ fs, ',' ∉ f.filename.data) :
    imagePaths none = none ∧
      (fs.length = 0 → imagePaths (some fs) = none) ∧
      (fs.length ≠ 0 → ∃ s, imagePaths (some fs) = some s ∧
        splitOnComma s = fs.map (fun f => "/uploads/" ++ f.filename) ∧
        (splitOnComma s).length = fs.length) := by
  refine ⟨rfl, ?_, ?_⟩
  · intro h0
    simp [imagePaths, h0]
  · intro hlen
    have hpos : fs.length > 0 := Nat.pos_of_ne_zero hlen
    have hne : fs ≠ [] := List.length_pos.1 hpos
    have hsplit : splitOnComma (",".intercalate (fs.map reference)) = fs.map reference := by
      apply splitOnComma_intercalate
      · simpa using hne
      · intro x hx
        obtain ⟨f, hf, rfl⟩ := List.mem_map.1 hx
        have hpre : ',' ∉ ("/uploads/" : String).data := by decide
        simp only [reference, String.data_append, List.mem_append, not_or]
        exact ⟨hpre, hcomma f hf⟩
    refine ⟨",".intercalate (fs.map reference), by simp [imagePaths, hpos], ?_, ?_⟩
    · rw [hsplit]; rfl
    · rw [hsplit]; simp

/-! ## Stored filenames -/

theorem decimalValue_snoc (cs : List Char) (c : Char) :
    decimalValue (cs ++ [c]) = decimalValue cs * 10 + (c.toNat - 48) := by
  simp [decimalValue, List.foldl_append]

theorem digitChar_value (m : Nat) (h : m < 10) :
    (Nat.digitChar m).toNat - 48 = m ∧ Nat.digitChar m ≠ '-' := by
  interval_cases m <;> exact ⟨by decide, by decide⟩

theorem toDigitsCore_spec (fuel : Nat) : ∀ (n : Nat) (ds : List Char), n < fuel →
    ∃ pre, Nat.toDigitsCore 10 fuel n ds = pre ++ ds ∧ decimalValue pre = n ∧
      ∀ c ∈ pre, c ≠ '-' := by
  induction fuel with
  | zero => intro n ds h; omega
  | succ fuel ih =>
    intro n ds h
    obtain ⟨hv, hd⟩ := digitChar_value (n % 10) (Nat.mod_lt _ (by decide))
    by_cases h0 : n / 10 = 0
    · refine ⟨[Nat.digitChar (n % 10)], by simp [Nat.toDigitsCore, h0], ?_, ?_⟩
      · have : decimalValue [Nat.digitChar (n % 10)] = (Nat.digitChar (n % 10)).toNat - 48 := by
          simp [decimalValue]
        rw [this, hv]; omega
      · intro c hc
        rw [List.mem_singleton.1 hc]; exact hd
    · have hlt : n / 10 < fuel := by omega
      obtain ⟨pre, hpre, hval, hdig⟩ := ih (n / 10) (Nat.digitChar (n % 10) :: ds) hlt
      refine ⟨pre ++ [Nat.digitChar (n % 10)], ?_, ?_, ?_⟩
      · simp [Nat.toDigitsCore, h0, hpre]
      · rw [decimalValue_snoc, hval, hv]; omega
      · intro c hc
        rcases List.mem_append.1 hc with hc | hc
        · exact hdig c hc
        · rw [List.mem_singleton.1 hc]; exact hd

theorem toString_data (t : Nat) :
    decimalValue (toString t).data = t ∧ ∀ c ∈ (toString t).data, c ≠ '-' := by
  obtain ⟨pre, hpre, hval, hdig⟩ := toDigitsCore_spec (t + 1) t [] (Nat.lt_succ_self t)
  have hd : (toString t).data = pre := by
    have : (toString t).data = Nat.toDigitsCore 10 (t + 1) t [] := rfl
    rw [this, hpre, List.append_nil]
  rw [hd]
  exact ⟨hval, hdig⟩

theorem append_sep_inj (x : Char) : ∀ (l₁ l₂ r₁ r₂ : List Char), x ∉ l₁ → x ∉ l₂ →
    l₁ ++ x :: r₁ = l₂ ++ x :: r₂ → l₁ = l₂ ∧ r₁ = r₂ := by
  intro l₁
  induction l₁ with
  | nil =>
    intro l₂ r₁ r₂ _ h₂ h
    cases l₂ with
    | nil => simpa using h
    | cons b l₂ =>
      simp only [List.nil_append, List.cons_append, List.cons.injEq] at h
      exact absurd (h.1 ▸ List.mem_cons_self _ _) h₂
  | cons a l₁ ih =>
    intro l₂ r₁ r₂ h₁ h₂ h
    cases l₂ with
    | nil =>
      simp only [List.nil_append, List.cons_append, List.cons.injEq] at h
      exact absurd (h.1 ▸ List.mem_cons_self _ _) h₁
    | cons b l₂ =>
      simp only [List.cons_append, List.cons.injEq] at h
      obtain ⟨e₁, e₂⟩ := ih l₂ r₁ r₂ (fun hm => h₁ (List.mem_cons_of_mem _ hm))
        (fun hm => h₂ (List.mem_cons_of_mem _ hm)) h.2
      exact ⟨by rw [h.1, e₁], e₂⟩

theorem filename_data (t : Nat) (n : String) :
    (filename t n).data = (toString t).data ++ '-' :: n.data := by
  simp only [filename, String.data_append]
  rw [List.append_assoc]
  rfl

theorem storeParts_ok (field : String) (maxCount : Nat) (ps : List FilePart) :
    ∀ acc fs, storeParts field maxCount ps acc = .ok fs →
      fs = acc ++ ps.map (fun p => ⟨p.fieldname, p.originalname,
        filename p.clock p.originalname⟩) := by
  induction ps with
  | nil =>
    intro acc fs h
    simp only [storeParts, Except.ok.injEq] at h
    simp [h]
  | cons p ps ih =>
    intro acc fs h
    simp only [storeParts] at h
    split at h
    · cases h
    · split at h
      · cases h
      · rw [ih _ _ h]; simp

/-- C9. The stored filename of an upload is the decimal text of the clock reading, then
"-", then the original filename: every file a successful upload leaves in `req.files`
has that name, and its recorded reference is "/uploads/" followed by it. For clock
readings `t1`, `t2` (non-negative integers) and original names `n1`, `n2`, the two stored
filenames are equal exactly when `t1 = t2` and `n1 = n2`. -/
theorem filename_collision_iff (t1 t2 : Nat) (n1 n2 : String) :
    filename t1 n1 = String.mk (Nat.toDigits 10 t1) ++ "-" ++ n1 ∧
      decimalValue (Nat.toDigits 10 t1) = t1 ∧
      (∀ ps fs, upload (some ps) = .ok (some fs) →
        fs = ps.map (fun p => ⟨p.fieldname, p.originalname,
          filename p.clock p.originalname⟩)) ∧
      (∀ f : File, reference f = "/uploads/" ++ f.filename) ∧
      (filename t1 n1 = filename t2 n2 ↔ t1 = t2 ∧ n1 = n2) := by
  refine ⟨rfl, (toString_data t1).1, ?_, fun _ => rfl, ?_⟩
  · intro ps fs h
    simp only [upload] at h
    cases hs : storeParts "images" 3 ps [] with
    | error e => simp [hs] at h
    | ok fs' =>
      simp only [hs, Except.ok.injEq, Option.some.injEq] at h
      rw [← h, storeParts_ok _ _ _ _ _ hs, List.nil_append]
  · constructor
    · intro h
      have hd := congrArg String.data h
      rw [filename_data, filename_data] at hd
      obtain ⟨e₁, e₂⟩ := append_sep_inj '-' _ _ _ _
        (fun hm => (toString_data t1).2 _ hm rfl) (fun hm => (toString_data t2).2 _ hm rfl) hd
      refine ⟨?_, String.ext e₂⟩
      rw [← (toString_data t1).1, ← (toString_data t2).1, e₁]
    · rintro ⟨rfl, rfl⟩; rfl

/-! ## Create -/

theorem createHandler_ok (env : Env) (db : Database) (body : Body)
    (files : Option (List File)) (hfault : env.fault = none) (hkey : db.highKey < maxRowid) :
    createHandler env (some db) body files =
      (⟨200, .envelope true "✅ Complaint saved successfully!"⟩,
        some { rows := db.rows ++ [newRow env.now body files db], seq := db.nextId }) := by
  have hk : ¬ db.highKey ≥ maxRowid := not_le.2 hkey
  simp only [createHandler, withDb_ok _ _ _ hfault, insertComplaint, hk, if_false, newRow]

/-- C7. For every open store (reachable or not) and every create that goes through
(upload accepted, no engine error, a key left): the create answers with the success
envelope, and a list right after it returns the new row followed by exactly what a list
right before it returned, so one element more; the new row carries the submitted name,
email, phone, category, description and location, status "Pending", and an `imagePath`
that is null without files and otherwise the comma-join of one "/uploads/..." reference
per uploaded file. -/
theorem create_then_list_puts_new_row_first (env envL : Env) (db : Database)
    (req : CreateRequest) (files : Option (List File))
    (hup : upload req.parts = .ok files) (hfault : env.fault = none)
    (hkey : db.highKey < maxRowid) (hL : envL.fault = none) :
    ∃ row prev,
      (postComplaints env (some db) req).1 =
          ⟨200, .envelope true "✅ Complaint saved successfully!"⟩ ∧
        (getComplaints envL (some db)).1 = ⟨200, .rows prev⟩ ∧
        (getComplaints envL (postComplaints env (some db) req).2).1 =
          ⟨200, .rows (row :: prev)⟩ ∧
        (row :: prev).length = prev.length + 1 ∧
        row.name = req.body.field "name" ∧ row.email = req.body.field "email" ∧
        row.phone = req.body.field "phone" ∧ row.category = req.body.field "category" ∧
        row.description = req.body.field "description" ∧
        row.location = req.body.field "location" ∧
        row.status = some "Pending" ∧
        (files = none ∨ files = some [] → row.imagePath = none) ∧
        (∀ fs, files = some fs → fs ≠ [] →
          ∃ entries, entries.length = fs.length ∧
            entries = fs.map (fun f => "/uploads/" ++ f.filename) ∧
            row.imagePath = some (",".intercalate entries)) := by
  have hpost : postComplaints env (some db) req =
      createHandler env (some db) req.body files := by
    simp only [postComplaints, hup]
  have hnew : ∀ r ∈ db.rows, r.id < (newRow env.now req.body files db).id :=
    fun r hr => id_lt_nextId db r hr
  refine ⟨toJs (newRow env.now req.body files db),
    (db.rows.insertionSort (fun a b => a.id ≥ b.id)).map toJs, ?_, ?_, ?_, rfl, rfl, rfl,
    rfl, rfl, rfl, rfl, rfl, ?_, ?_⟩
  · rw [hpost, createHandler_ok env db req.body files hfault hkey]
  · simp only [getComplaints, withDb_ok _ _ _ hL, selectAll]
  · rw [hpost, createHandler_ok env db req.body files hfault hkey]
    simp only [getComplaints, withDb_ok _ _ _ hL, selectAll, insertionSort_newest _ _ hnew,
      List.map_cons]
  · rintro (h | h) <;> subst h <;> rfl
  · intro fs hfs hne
    subst hfs
    have hlen : fs.length > 0 := List.length_pos.2 hne
    refine ⟨fs.map (fun f => "/uploads/" ++ f.filename), by simp, rfl, ?_⟩
    simp only [toJs, newRow, imagePaths, hlen, if_true]
    rfl

/-- C10. Two creates on the same store and in the same environment that agree on name,
email, phone, category, description, location and on their uploaded files, whatever else
their bodies carry (an id, a status, an imagePath, a createdAt), get the same response and
leave the same store; when the create goes through, the row added has the key generated
by the store and status "Pending". -/
theorem postComplaints_ignores_other_fields (env : Env) (st : Option Database)
    (r1 r2 : CreateRequest) (hparts : r1.parts = r2.parts)
    (hfields : ∀ k ∈ ["name", "email", "phone", "category", "description", "location"],
      r1.body.field k = r2.body.field k) :
    postComplaints env st r1 = postComplaints env st r2 ∧
      ∀ db files, st = some db → upload r1.parts = .ok files → env.fault = none →
        db.highKey < maxRowid →
        ∃ row, (postComplaints env st r1).2 =
            some { rows := db.rows ++ [row], seq := db.nextId } ∧
          (postComplaints env st r2).2 =
            some { rows := db.rows ++ [row], seq := db.nextId } ∧
          row.id = db.nextId ∧ row.status = some "Pending" := by
  have h1 := hfields "name" (by simp)
  have h2 := hfields "email" (by simp)
  have h3 := hfields "phone" (by simp)
  have h4 := hfields "category" (by simp)
  have h5 := hfields "description" (by simp)
  have h6 := hfields "location" (by simp)
  have heq : postComplaints env st r1 = postComplaints env st r2 := by
    simp only [postComplaints, createHandler, hparts, h1, h2, h3, h4, h5, h6]
  refine ⟨heq, ?_⟩
  intro db files hst hup hfault hkey
  subst hst
  refine ⟨newRow env.now r1.body files db, ?_, ?_, rfl, rfl⟩
  · simp only [postComplaints, hup, createHandler_ok env db r1.body files hfault hkey]
  · rw [← heq]
    simp only [postComplaints, hup, createHandler_ok env db r1.body files hfault hkey]

/-! ## Failures -/

/-- C8, as stated, fails: a create whose upload cannot be written fails, the store is
untouched, but the answer is the framework's error page and not the error envelope. -/
theorem postComplaints_upload_failure_is_not_enveloped :
    upload (some [⟨"images", "a.png", 1700, false⟩]) = .error "write failed" ∧
      (postComplaints ⟨"2024-01-01 00:00:00", none⟩ (some Database.empty)
        ⟨[("name", "A")], some [⟨"images", "a.png", 1700, false⟩]⟩).1 =
        ⟨500, .defaultError "write failed"⟩ ∧
      (postComplaints ⟨"2024-01-01 00:00:00", none⟩ (some Database.empty)
        ⟨[("name", "A")], some [⟨"images", "a.png", 1700, false⟩]⟩).1.isErrorEnvelope
        = false :=
  ⟨rfl, by decide, by decide⟩

theorem withDb_error_iff {α : Type} (st : Option Database) (env : Env)
    (stmt : Database → Except String α) (hstmt : ∀ db, ∃ a, stmt db = .ok a) :
    (∃ e, withDb st env stmt = .error e) ↔ storeFails st env := by
  constructor
  · rintro ⟨e, he⟩
    cases st with
    | none => exact Or.inl rfl
    | some db =>
      cases hf : env.fault with
      | some e' => exact Or.inr (by simp [hf])
      | none =>
        obtain ⟨a, ha⟩ := hstmt db
        simp [withDb, hf, ha] at he
  · exact withDb_fails st env stmt

theorem routes_error_envelope_iff_store_failure (keyOf : String → Option Int) (env : Env)
    (st : Option Database) :
    (((getComplaints env st).1.isErrorEnvelope = true ↔ storeFails st env) ∧
      (¬ storeFails st env → ∃ l, (getComplaints env st).1 = ⟨200, .rows l⟩) ∧
      (getComplaints env st).2 = st) ∧
    (∀ id body,
      ((putComplaint keyOf env st id body).1.isErrorEnvelope = true ↔ storeFails st env) ∧
      (¬ storeFails st env → (putComplaint keyOf env st id body).1.isSuccessEnvelope = true) ∧
      (storeFails st env → (putComplaint keyOf env st id body).2 = st)) ∧
    (∀ req,
      (∀ files, upload req.parts = .ok files →
        ((postComplaints env st req).1.isErrorEnvelope = true ↔
          (storeFails st env ∨ keysExhausted st)) ∧
        (¬ (storeFails st env ∨ keysExhausted st) →
          (postComplaints env st req).1.isSuccessEnvelope = true) ∧
        ((storeFails st env ∨ keysExhausted st) → (postComplaints env st req).2 = st)) ∧
      (∀ e, upload req.parts = .error e →
        (postComplaints env st req).1 = ⟨500, .defaultError e⟩ ∧
        (postComplaints env st req).1.isErrorEnvelope = false ∧
        (postComplaints env st req).2 = st)) := by
  refine ⟨?_, ?_, ?_⟩
  · have hiff := withDb_error_iff st env selectAll (fun db => ⟨_, rfl⟩)
    cases hw : withDb st env selectAll with
    | error e =>
      have hf : storeFails st env := hiff.1 ⟨e, hw⟩
      simp [getComplaints, hw, hf, Response.isErrorEnvelope]
    | ok l =>
      have hf : ¬ storeFails st env := fun h => by
        obtain ⟨e, he⟩ := hiff.2 h
        rw [hw] at he; cases he
      simp [getComplaints, hw, hf, Response.isErrorEnvelope]
  · intro id body
    have hiff := withDb_error_iff st env (updateStatus keyOf (body.field "status") id)
      (fun db => ⟨_, rfl⟩)
    cases hw : withDb st env (updateStatus keyOf (body.field "status") id) with
    | error e =>
      have hf : storeFails st env := hiff.1 ⟨e, hw⟩
      simp [putComplaint, hw, hf, Response.isErrorEnvelope]
    | ok l =>
      have hf : ¬ storeFails st env := fun h => by
        obtain ⟨e, he⟩ := hiff.2 h
        rw [hw] at he; cases he
      simp [putComplaint, hw, hf, Response.isErrorEnvelope, Response.isSuccessEnvelope]
  · intro req
    constructor
    · intro files hup
      have hpost : postComplaints env st req = createHandler env st req.body files := by
        simp only [postComplaints, hup]
      rw [hpost]
      by_cases hf : storeFails st env
      · obtain ⟨e, he⟩ := withDb_fails st env
          (insertComplaint env.now (req.body.field "name") (req.body.field "email")
            (req.body.field "phone") (req.body.field "category")
            (req.body.field "description") (req.body.field "location")
            (imagePaths files)) hf
        simp [createHandler, he, hf, Response.isErrorEnvelope]
      · have hst : ∃ db, st = some db := by
          cases st with
          | none => exact absurd (Or.inl rfl) hf
          | some db => exact ⟨db, rfl⟩
        obtain ⟨db, rfl⟩ := hst
        have hfault : env.fault = none := by
          cases h : env.fault with
          | none => rfl
          | some e => exact absurd (Or.inr (by simp [h])) hf
        by_cases hk : db.highKey ≥ maxRowid
        · have hex : keysExhausted (some db) := ⟨db, rfl, hk⟩
          simp [createHandler, withDb_ok _ _ _ hfault, insertComplaint, hk, hex,
            Response.isErrorEnvelope]
        · have hex : ¬ keysExhausted (some db) := by
            rintro ⟨db', hdb, hk'⟩
            cases hdb
            exact hk hk'
          rw [createHandler_ok env db req.body files hfault (not_le.1 hk)]
          simp [hf, hex, Response.isErrorEnvelope, Response.isSuccessEnvelope]
    · intro e hup
      simp [postComplaints, hup, Response.isErrorEnvelope]

/-- C8, amended. A request stopped by a middleware in front of the handler gets the
framework's own error page, not the envelope, and the store is as it was: a JSON body
that does not parse (status 400) or is too large (413) on any of the three routes, and a
rejected upload on create (500). For a request that reaches its handler, the answer is the
error envelope with status 500 exactly when the handler fails (nothing in `req.body` for
create and update-status, handle not open, engine error, or for create no key left);
otherwise create and update-status answer with the success envelope and list with the
raw rows; and a failing operation leaves the store as it was. -/
theorem service_error_envelope_iff_handler_failure (keyOf : String → Option Int)
    (unparsed : Option Body) (env : Env) (st : Option Database) (c : Content) :
    (∀ code e, bodyParserJson unparsed c = .error (code, e) →
      serveGet unparsed env st c = (⟨code, .defaultError e⟩, st) ∧
      (∀ id, servePut keyOf unparsed env st id c = (⟨code, .defaultError e⟩, st)) ∧
      servePost unparsed env st c = (⟨code, .defaultError e⟩, st) ∧
      (⟨code, .defaultError e⟩ : Response).isErrorEnvelope = false) ∧
    (∀ parsed, bodyParserJson unparsed c = .ok parsed →
      (((serveGet unparsed env st c).1.isErrorEnvelope = true ↔ storeFails st env) ∧
        (¬ storeFails st env → ∃ l, (serveGet unparsed env st c).1 = ⟨200, .rows l⟩) ∧
        (serveGet unparsed env st c).2 = st) ∧
      (∀ id,
        ((servePut keyOf unparsed env st id c).1.isErrorEnvelope = true ↔
          (parsed = none ∨ storeFails st env)) ∧
        (¬ (parsed = none ∨ storeFails st env) →
          (servePut keyOf unparsed env st id c).1.isSuccessEnvelope = true) ∧
        ((parsed = none ∨ storeFails st env) →
          (servePut keyOf unparsed env st id c).2 = st)) ∧
      (∀ files, upload c.parts = .ok files →
        ((servePost unparsed env st c).1.isErrorEnvelope = true ↔
          (c.formBody parsed = none ∨ storeFails st env ∨ keysExhausted st)) ∧
        (¬ (c.formBody parsed = none ∨ storeFails st env ∨ keysExhausted st) →
          (servePost unparsed env st c).1.isSuccessEnvelope = true) ∧
        ((c.formBody parsed = none ∨ storeFails st env ∨ keysExhausted st) →
          (servePost unparsed env st c).2 = st)) ∧
      (∀ e, upload c.parts = .error e →
        (servePost unparsed env st c).1 = ⟨500, .defaultError e⟩ ∧
        (servePost unparsed env st c).1.isErrorEnvelope = false ∧
        (servePost unparsed env st c).2 = st)) ∧
    bodyParserJson unparsed .malformedJson = .error (400, "SyntaxError") ∧
    bodyParserJson unparsed .oversizedJson = .error (413, "PayloadTooLargeError") := by
  obtain ⟨hget, hput, hpost⟩ := routes_error_envelope_iff_store_failure keyOf env st
  refine ⟨?_, ?_, rfl, rfl⟩
  · intro code e h
    refine ⟨?_, ?_, ?_, rfl⟩
    · simp only [serveGet, h]
    · intro id; simp only [servePut, h]
    · simp only [servePost, h]
  · intro parsed h
    refine ⟨?_, ?_, ?_, ?_⟩
    · have e : serveGet unparsed env st c = getComplaints env st := by
        simp only [serveGet, h]
      rw [e]; exact hget
    · intro id
      cases parsed with
      | none =>
        have e : servePut keyOf unparsed env st id c =
            (⟨500, .envelope false "Error updating status."⟩, st) := by
          simp only [servePut, h]
        rw [e]
        simp [Response.isErrorEnvelope]
      | some body =>
        have e : servePut keyOf unparsed env st id c = putComplaint keyOf env st id body := by
          simp only [servePut, h]
        rw [e]
        obtain ⟨h1, h2, h3⟩ := hput id body
        simp only [reduceCtorEq, false_or]
        exact ⟨h1, h2, h3⟩
    · intro files hup
      cases hfb : c.formBody parsed with
      | none =>
        have e : servePost unparsed env st c =
            (⟨500, .envelope false "Error saving complaint."⟩, st) := by
          simp only [servePost, h, hfb]
        rw [e]
        simp [Response.isErrorEnvelope]
      | some body =>
        have e : servePost unparsed env st c = postComplaints env st ⟨body, c.parts⟩ := by
          simp only [servePost, h, hfb]
        rw [e]
        obtain ⟨h1, h2, h3⟩ := (hpost ⟨body, c.parts⟩).1 files hup
        simp only [reduceCtorEq, false_or]
        exact ⟨h1, h2, h3⟩
    · intro e hup
      have hfb : ∃ body, c.formBody parsed = some body := by
        cases c with
        | multipart fields ps => exact ⟨fields, rfl⟩
        | empty => simp [Content.parts, upload] at hup
        | json f => simp [Content.parts, upload] at hup
        | malformedJson => simp [Content.parts, upload] at hup
        | oversizedJson => simp [Content.parts, upload] at hup
      obtain ⟨body, hbody⟩ := hfb
      have e' : servePost unparsed env st c = postComplaints env st ⟨body, c.parts⟩ := by
        simp only [servePost, h, hbody]
      rw [e']
      exact (hpost ⟨body, c.parts⟩).2 e hup

/-! ## The theorems at sample inputs -/

/-- Setting row 2 of the sample store to "Resolved". -/
theorem putComplaint_existing_changes_only_status_witness :
    sampleEnv.fault = none ∧ sampleKeyOf "2" = some 2 ∧ (2 : Int) ∈ sampleDb.ids ∧
    ∃ db', putComplaint sampleKeyOf sampleEnv (some sampleDb) "2" [("status", "Resolved")] =
        (⟨200, .envelope true "✅ Status updated successfully!"⟩, some db') ∧
      db'.rows.length = sampleDb.rows.length ∧ db'.ids = sampleDb.ids ∧
      db'.seq = sampleDb.seq ∧
      (∃ r ∈ db'.rows, r.id = 2 ∧
        r.status = Body.field [("status", "Resolved")] "status") ∧
      List.Forall₂
        (fun r r' =>
          (r.id = 2 → r' = { r with status := Body.field [("status", "Resolved")] "status" }) ∧
          (r.id ≠ 2 → r' = r))
        sampleDb.rows db'.rows :=
  ⟨rfl, by decide, by decide,
    putComplaint_existing_changes_only_status sampleKeyOf sampleEnv sampleDb "2" 2
      [("status", "Resolved")] rfl (by decide) (by decide)⟩

/-- Updating key 9, which the sample store does not hold. -/
theorem putComplaint_missing_id_is_noop_witness :
    sampleEnv.fault = none ∧ (∀ r ∈ sampleDb.rows, sampleKeyOf "9" ≠ some r.id) ∧
    (putComplaint sampleKeyOf sampleEnv (some sampleDb) "9" [("status", "Resolved")] =
        (⟨200, .envelope true "✅ Status updated successfully!"⟩, some sampleDb) ∧
      (putComplaint sampleKeyOf sampleEnv (some sampleDb) "9"
        [("status", "Resolved")]).1.isSuccessEnvelope = true ∧
      ∀ db', (putComplaint sampleKeyOf sampleEnv (some sampleDb) "9"
          [("status", "Resolved")]).2 = some db' →
        db'.rows = sampleDb.rows ∧ db'.nextId = sampleDb.nextId) :=
  ⟨rfl, by decide,
    putComplaint_missing_id_is_noop sampleKeyOf sampleEnv sampleDb "9"
      [("status", "Resolved")] rfl (by decide)⟩

/-- Listing the sample store. -/
theorem getComplaints_all_rows_newest_first_witness :
    sampleEnv.fault = none ∧ sampleDb.WF ∧ (∀ r ∈ sampleDb.rows, r.id.natAbs ≤ 2 ^ 53) ∧
    ∃ l, getComplaints sampleEnv (some sampleDb) = (⟨200, .rows l⟩, some sampleDb) ∧
      l.Perm sampleDb.rows ∧
      (l.map (fun r => r.id)).Pairwise (fun x y => x > y) ∧
      (sampleDb.ids.Perm [1, 2, 3] → l.map (fun r => r.id) = [3, 2, 1]) :=
  ⟨rfl, by decide, by decide,
    getComplaints_all_rows_newest_first sampleEnv sampleDb rfl (by decide) (by decide)⟩

/-- A multipart create without files on the sample store. -/
theorem createHandler_no_files_witness :
    ((some [] : Option (List File)) = none ∨ (some [] : Option (List File)) = some []) ∧
    sampleEnv.fault = none ∧ sampleDb.highKey < maxRowid ∧
    ∃ row, (createHandler sampleEnv (some sampleDb) sampleCreate.body (some [])).2 =
        some { rows := sampleDb.rows ++ [row], seq := sampleDb.nextId } ∧
      row = newRow sampleEnv.now sampleCreate.body (some []) sampleDb ∧
      row.imagePath = none ∧ row.status = some "Pending" :=
  ⟨Or.inr rfl, rfl, by decide,
    createHandler_no_files sampleEnv sampleDb sampleCreate.body (some []) (Or.inr rfl) rfl
      (by decide)⟩

/-- Two files with comma-free names. -/
theorem imagePaths_split_without_commas_witness :
    (∀ f ∈ [(⟨"images", "a.png", "1700-a.png"⟩ : File), ⟨"images", "b.png", "1701-b.png"⟩],
      ',' ∉ f.filename.data) ∧
    (imagePaths none = none ∧
      ([(⟨"images", "a.png", "1700-a.png"⟩ : File), ⟨"images", "b.png", "1701-b.png"⟩].length
          = 0 →
        imagePaths (some [⟨"images", "a.png", "1700-a.png"⟩,
          ⟨"images", "b.png", "1701-b.png"⟩]) = none) ∧
      ([(⟨"images", "a.png", "1700-a.png"⟩ : File), ⟨"images", "b.png", "1701-b.png"⟩].length
          ≠ 0 →
        ∃ s, imagePaths (some [⟨"images", "a.png", "1700-a.png"⟩,
            ⟨"images", "b.png", "1701-b.png"⟩]) = some s ∧
          splitOnComma s =
            [(⟨"images", "a.png", "1700-a.png"⟩ : File),
              ⟨"images", "b.png", "1701-b.png"⟩].map (fun f => "/uploads/" ++ f.filename) ∧
          (splitOnComma s).length =
            [(⟨"images", "a.png", "1700-a.png"⟩ : File),
              ⟨"images", "b.png", "1701-b.png"⟩].length)) :=
  ⟨by decide,
    imagePaths_split_without_commas
      [⟨"images", "a.png", "1700-a.png"⟩, ⟨"images", "b.png", "1701-b.png"⟩] (by decide)⟩

/-- The scenario of the specification: the sample create on the empty store, then a list. -/
theorem create_then_list_puts_new_row_first_witness :
    upload sampleCreate.parts = .ok (some [⟨"images", "hole.png", "1700-hole.png"⟩]) ∧
    sampleEnv.fault = none ∧ Database.empty.highKey < maxRowid ∧
    ∃ row prev,
      (postComplaints sampleEnv (some Database.empty) sampleCreate).1 =
          ⟨200, .envelope true "✅ Complaint saved successfully!"⟩ ∧
        (getComplaints sampleEnv (some Database.empty)).1 = ⟨200, .rows prev⟩ ∧
        (getComplaints sampleEnv
          (postComplaints sampleEnv (some Database.empty) sampleCreate).2).1 =
          ⟨200, .rows (row :: prev)⟩ ∧
        (row :: prev).length = prev.length + 1 ∧
        row.name = sampleCreate.body.field "name" ∧
        row.email = sampleCreate.body.field "email" ∧
        row.phone = sampleCreate.body.field "phone" ∧
        row.category = sampleCreate.body.field "category" ∧
        row.description = sampleCreate.body.field "description" ∧
        row.location = sampleCreate.body.field "location" ∧
        row.status = some "Pending" ∧
        ((some [⟨"images", "hole.png", "1700-hole.png"⟩] : Option (List File)) = none ∨
          (some [⟨"images", "hole.png", "1700-hole.png"⟩] : Option (List File)) = some [] →
          row.imagePath = none) ∧
        (∀ fs, (some [⟨"images", "hole.png", "1700-hole.png"⟩] : Option (List File)) = some fs →
          fs ≠ [] →
          ∃ entries, entries.length = fs.length ∧
            entries = fs.map (fun f => "/uploads/" ++ f.filename) ∧
            row.imagePath = some (",".intercalate entries)) :=
  ⟨rfl, rfl, by decide,
    create_then_list_puts_new_row_first sampleEnv sampleEnv Database.empty sampleCreate
      (some [⟨"images", "hole.png", "1700-hole.png"⟩]) rfl rfl (by decide) rfl⟩

/-- The sample create and the same create with forged id and status. -/
theorem postComplaints_ignores_other_fields_witness :
    sampleCreateForged.parts = sampleCreate.parts ∧
    (∀ k ∈ ["name", "email", "phone", "category", "description", "location"],
      sampleCreateForged.body.field k = sampleCreate.body.field k) ∧
    sampleCreateForged.body ≠ sampleCreate.body ∧
    (postComplaints sampleEnv (some sampleDb) sampleCreateForged =
        postComplaints sampleEnv (some sampleDb) sampleCreate ∧
      ∀ db files, some sampleDb = some db → upload sampleCreateForged.parts = .ok files →
        sampleEnv.fault = none → db.highKey < maxRowid →
        ∃ row, (postComplaints sampleEnv (some sampleDb) sampleCreateForged).2 =
            some { rows := db.rows ++ [row], seq := db.nextId } ∧
          (postComplaints sampleEnv (some sampleDb) sampleCreate).2 =
            some { rows := db.rows ++ [row], seq := db.nextId } ∧
          row.id = db.nextId ∧ row.status = some "Pending") :=
  ⟨rfl, by decide, by decide,
    postComplaints_ignores_other_fields sampleEnv (some sampleDb) sampleCreateForged
      sampleCreate rfl (by decide)⟩

end Complaints
